import Mathlib

/-!
# Verification of the YouTube transcriber orchestration core

A shallow embedding of `transcriber_core.py` (class `YouTubeTranscriber`),
the SSE event generator of `web_app.py`, and the path handling used by
`save_transcription`.  External effects (yt-dlp, pydub, whisper, the
progress callback, the file system) are supplied by an explicit
environment record; the mutable object state (`self.temp_files`,
`self.whisper_model`, `self.model_size`) and the set of files on disk are
threaded as an explicit state record.
-/

namespace Transcribe

/-! ## Python string primitives -/

/-- The default whitespace set of Python `str.strip()`. -/
def pyWs (c : Char) : Bool :=
  c = ' ' || c = '\t' || c = '\n' || c = '\r' || c = '\x0b' || c = '\x0c'

/-- `str.strip()` on a character list: drop whitespace from both ends. -/
def pyStripList (cs : List Char) : List Char :=
  ((cs.dropWhile pyWs).reverse.dropWhile pyWs).reverse

/-- Python `str.strip()`. -/
def pyStrip (s : String) : String := ⟨pyStripList s.data⟩

/-- Index of the last occurrence of `c` in `cs`, if any. -/
def lastIdx (cs : List Char) (c : Char) : Option Nat :=
  match cs with
  | [] => none
  | x :: xs =>
    match lastIdx xs c with
    | some j => some (j + 1)
    | none => if x = c then some 0 else none

/-- The split position of `posixpath.splitext`: the index of the extension
dot, when the path splits (the dot is after the last `/` and the basename
is not made of leading dots only). -/
def splitextIdx (p : String) : Option Nat :=
  let cs := p.data
  let sepIdx : Int := match lastIdx cs '/' with | some i => (i : Int) | none => -1
  match lastIdx cs '.' with
  | none => none
  | some d =>
    if (d : Int) > sepIdx then
      let base := (cs.drop ((sepIdx + 1).toNat)).take (((d : Int) - sepIdx - 1).toNat)
      if base.all (fun c => c = '.') then none else some d
    else none

/-- `os.path.splitext(p)[0]` (POSIX rules). -/
def splitextRoot (p : String) : String :=
  match splitextIdx p with
  | some d => ⟨p.data.take d⟩
  | none => p

/-- `os.path.splitext(p)[1]` (POSIX rules). -/
def splitextExt (p : String) : String :=
  match splitextIdx p with
  | some d => ⟨p.data.drop d⟩
  | none => ""

/-- Drop trailing `/` characters. -/
def dropTrailingSlashes (cs : List Char) : List Char :=
  (cs.reverse.dropWhile (fun c => c = '/')).reverse

/-- `os.path.dirname` (POSIX rules): everything up to the last `/`, with
trailing slashes stripped unless the head is all slashes. -/
def dirnamePosix (p : String) : String :=
  let cs := p.data
  match lastIdx cs '/' with
  | none => ""
  | some i =>
    let head := cs.take (i + 1)
    if head.all (fun c => c = '/') then ⟨head⟩ else ⟨dropTrailingSlashes head⟩

/-- Python `str.lower()` restricted to ASCII (sufficient for extensions). -/
def pyLower (s : String) : String := ⟨s.data.map Char.toLower⟩

/-! ## The URL validator

`_is_valid_youtube_url` applies `re.match` with the pattern

`(https?://)?(www\.)?(youtube|youtu|youtube-nocookie)\.(com|be)/(watch\?v=|embed/|v/|.+\?v=)?([^&=%\?]{11})`

Backtracking regex matching succeeds exactly when some decomposition of a
prefix of the input into the pieces of the pattern exists, which is what
the functions below decide. -/

/-- `([^&=%\?]{11})`: the first 11 characters avoid `&`, `=`, `%`, `?`. -/
def idChunkOk (cs : List Char) : Bool :=
  cs.length = 11 && cs.all (fun c => !(c = '&' || c = '=' || c = '%' || c = '?'))

/-- Match `([^&=%\?]{11})` followed by anything at the front of `cs`. -/
def matchId (cs : List Char) : Bool := idChunkOk (cs.take 11)

/-- Match the `.+\?v=` alternative of group 5 followed by the video id:
one or more non-newline characters, then `?v=`, then the id. -/
def dotPlusMatch (cs : List Char) : Bool :=
  (List.range cs.length).any fun k =>
    decide (1 ≤ k) && (cs.take k).all (fun c => !(c = '\n')) &&
      List.isPrefixOf "?v=".data (cs.drop k) && matchId (cs.drop (k + 3))

/-- Match `(watch\?v=|embed/|v/|.+\?v=)?([^&=%\?]{11})` followed by anything. -/
def afterGroup5 (cs : List Char) : Bool :=
  matchId cs
  || (["watch?v=", "embed/", "v/"].any fun g =>
        List.isPrefixOf g.data cs && matchId (cs.drop g.data.length))
  || dotPlusMatch cs

/-- `_is_valid_youtube_url`. -/
def isValidYoutubeUrl (url : String) : Bool :=
  let cs := url.data
  ["", "http://", "https://"].any fun proto =>
  ["", "www."].any fun w =>
  ["youtube", "youtu", "youtube-nocookie"].any fun d =>
  ["com", "be"].any fun t =>
    let p := proto ++ w ++ d ++ "." ++ t ++ "/"
    List.isPrefixOf p.data cs && afterGroup5 (cs.drop p.data.length)

/-- Modelled from the claim and spec wording (C2): a recognized YouTube URL
shape is an optional scheme and optional `www.` prefix, then one of the
hosts `youtube.com`, `youtu.be` or `youtube-nocookie.com`, then a
`watch?v=`, `embed/`, `v/` or bare form from which an 11-character video id
is extractable. -/
def recognizedShapeSpec (url : String) : Bool :=
  let cs := url.data
  ["", "http://", "https://"].any fun proto =>
  ["", "www."].any fun w =>
  ["youtube.com", "youtu.be", "youtube-nocookie.com"].any fun host =>
  ["watch?v=", "embed/", "v/", ""].any fun form =>
    let p := proto ++ w ++ host ++ "/" ++ form
    List.isPrefixOf p.data cs && idChunkOk ((cs.drop p.data.length).take 11)

/-! ## Data model

The state record `St` carries the mutable fields of the `YouTubeTranscriber`
object (`temp_files`, `whisper_model`, `model_size`), the set of files
currently on disk, and two instrumentation fields: `events`, a log of
progress-callback invocations, download attempts and model loads, and
`regLog`, a ghost log of the files registered (appended to `temp_files`)
during the current call. -/

/-- A segmented piece of the whisper result.  `stop` models the `end` key
(`end` is a Lean keyword); times are exact integers since the code passes
them through verbatim. -/
structure Segment where
  text : String
  start : Int
  stop : Int
deriving DecidableEq, Repr

/-- The dict returned by `whisper_model.transcribe`: an optional
`segments` list (absent list models a missing or empty-tested key) and the
flat `text` field. -/
structure WhisperResult where
  segments : Option (List Segment)
  text : String
deriving DecidableEq, Repr

/-- A progress-callback payload: a plain status string or the structured
per-segment dict built in `_transcribe_audio`. -/
inductive Event where
  | status (msg : String)
  | segment (text : String) (start stop : Int) (num total : Nat)
deriving DecidableEq, Repr

/-- Instrumentation log entries: a delivered callback invocation, a
download approach being tried, a `whisper.load_model` call. -/
inductive LogEntry where
  | cbCall (e : Event)
  | dlAttempt (i : Nat)
  | modelLoad (size : String)
deriving DecidableEq, Repr

/-- Outcome of running one yt-dlp approach on the url: the call raises, or
`extract_info`/`prepare_filename` return `path`, with `creates` telling
whether the (post-processed) audio file was written to disk. -/
inductive DlOutcome where
  | raiseExc : DlOutcome
  | info (path : String) (creates : Bool) : DlOutcome
deriving DecidableEq, Repr

/-- Decode formats selected from the extension in `_convert_to_wav`. -/
inductive Fmt where
  | mp3 | m4a | webm | ogg | auto
deriving DecidableEq, Repr

/-- The external world of one call: the progress callback (presence, and
for each invocation index whether it raises and with which message), the
downloader, `os.path.getsize` (`none` models a raise), the pydub
decode-and-export step, the `tempfile.mktemp` result, `whisper.load_model`
(`none` models a raise) and `model.transcribe` (`none` models a raise). -/
structure Env where
  hasCb : Bool
  cbRaises : Nat → Option String
  dl : Nat → DlOutcome
  getsize : String → Option Nat
  decode : String → Fmt → Bool
  wavPath : String
  loadModel : String → Option String
  transcribeRes : String → String → Option WhisperResult

/-- The threaded state: files on disk, the transcriber object fields, and
the instrumentation logs. -/
structure St where
  disk : List String
  tempFiles : List String
  regLog : List String
  whisperModel : Option String
  modelSize : String
  events : List LogEntry
  cbCount : Nat
deriving DecidableEq, Repr

/-- The result dict of `transcribe_youtube_url`.  Missing keys are `none`;
`video_info` is not tracked (no claim mentions it). -/
structure TResult where
  success : Bool
  error : Option String
  transcription : Option String
  url : Option String
  modelUsed : Option String
deriving DecidableEq, Repr

/-! ## File-system primitives -/

/-- Writing a file to disk.  The OS cannot create a file with an empty
name, so the empty path is never added. -/
def diskAdd (f : String) (d : List String) : List String :=
  if f = "" then d else f :: d

/-- `os.path.exists`. -/
def diskHas (f : String) (d : List String) : Bool := d.contains f

/-- Delete each file of `fs` from disk.  `os.remove` failures are logged
and swallowed by the source; the model treats deletion as effective. -/
def removeAll (fs : List String) (d : List String) : List String :=
  d.filter (fun f => !(fs.contains f))

/-! ## The pipeline -/

/-- One guarded `progress_callback(e)` call site: when a callback is
present it is invoked (logged) and may raise, returning the exception
message. -/
def invokeCb (env : Env) (s : St) (e : Event) : St × Option String :=
  if env.hasCb then
    ({ s with events := s.events ++ [LogEntry.cbCall e], cbCount := s.cbCount + 1 },
      env.cbRaises s.cbCount)
  else (s, none)

/-- One iteration of the approach loop in `_download_audio`: approach 1
carries the `FFmpegExtractAudio` postprocessor, so its path is rewritten to
`splitext(path)[0] + ".mp3"` before the existence check; a file that exists
is appended to `self.temp_files` and returned. -/
def downloadAttempt (env : Env) (s : St) (i : Nat) : St × Option String :=
  let s1 := { s with events := s.events ++ [LogEntry.dlAttempt i] }
  match env.dl i with
  | DlOutcome.raiseExc => (s1, none)
  | DlOutcome.info path creates =>
    let path1 := if i = 1 then splitextRoot path ++ ".mp3" else path
    let s2 := { s1 with disk := if creates then diskAdd path1 s1.disk else s1.disk }
    if diskHas path1 s2.disk then
      ({ s2 with tempFiles := s2.tempFiles ++ [path1], regLog := s2.regLog ++ [path1] },
        some path1)
    else (s2, none)

/-- `_download_audio`: the three approaches tried in order. -/
def downloadAudio (env : Env) (s : St) : St × Option String :=
  let a1 := downloadAttempt env s 1
  match a1.2 with
  | some p => (a1.1, some p)
  | none =>
    let a2 := downloadAttempt env a1.1 2
    match a2.2 with
    | some p => (a2.1, some p)
    | none => downloadAttempt env a2.1 3

/-- The 4 GB size threshold of `_convert_to_wav`. -/
def maxConvertSize : Nat := 4 * 1024 * 1024 * 1024

/-- Extension dispatch of `_convert_to_wav`. -/
def extFmt (ext : String) : Fmt :=
  if ext = ".mp3" then Fmt.mp3
  else if ext = ".m4a" then Fmt.m4a
  else if ext = ".webm" then Fmt.webm
  else if ext = ".ogg" then Fmt.ogg
  else Fmt.auto

/-- `_convert_to_wav`: oversized files skip conversion; a successful
decode-and-export writes and registers the fresh WAV path; any raise falls
back to the original path. -/
def convertToWav (env : Env) (s : St) (p : String) : St × Option String :=
  match env.getsize p with
  | none => (s, some p)
  | some sz =>
    if sz > maxConvertSize then (s, some p)
    else
      let fmt := extFmt (pyLower (splitextExt p))
      if env.decode p fmt then
        let wav := env.wavPath
        ({ s with disk := diskAdd wav s.disk,
                  tempFiles := s.tempFiles ++ [wav],
                  regLog := s.regLog ++ [wav] }, some wav)
      else (s, some p)

/-- The per-segment loop of `_transcribe_audio`: each non-empty trimmed
segment extends the accumulator and is emitted through the callback; a
raising callback aborts the whole transcription to `None`. -/
def segLoop (env : Env) (s : St) (segs : List Segment) (i total : Nat)
    (acc : String) : St × Option String :=
  match segs with
  | [] => (s, some acc)
  | seg :: rest =>
    let st := pyStrip seg.text
    if st = "" then segLoop env s rest (i + 1) total acc
    else
      let c := invokeCb env s (Event.segment st seg.start seg.stop (i + 1) total)
      match c.2 with
      | some _ => (c.1, none)
      | none => segLoop env c.1 rest (i + 1) total (acc ++ st ++ " ")

/-- The body of `_transcribe_audio` after the model is available: the
initial callback, the `model.transcribe` call, then the segment loop or
the flat-text fallback. -/
def transcribeBody (env : Env) (s : St) (h p : String) : St × Option String :=
  let c1 := invokeCb env s (Event.status "Processing audio with Whisper...")
  match c1.2 with
  | some _ => (c1.1, none)
  | none =>
    match env.transcribeRes h p with
    | none => (c1.1, none)
    | some res =>
      match res.segments with
      | some (seg :: rest) =>
        let segs := seg :: rest
        let total := segs.length
        let c2 := invokeCb env c1.1
          (Event.status ("Found " ++ toString total ++ " segments, streaming..."))
        match c2.2 with
        | some _ => (c2.1, none)
        | none =>
          let lp := segLoop env c2.1 segs 0 total ""
          match lp.2 with
          | none => (lp.1, none)
          | some full =>
            let t := pyStrip full
            if t = "" then (lp.1, none) else (lp.1, some t)
      | _ =>
        let t := pyStrip res.text
        if t = "" then (c1.1, none) else (c1.1, some t)

/-- The lazy model-loading step at the top of `_transcribe_audio`:
`whisper.load_model(self.model_size)` runs only when no model is cached;
a raise (from the callback or the load) aborts to `None`. -/
def loadStep (env : Env) (s : St) : St × Option String :=
  match s.whisperModel with
  | some h => (s, some h)
  | none =>
    let c := invokeCb env s
      (Event.status ("Loading Whisper model \x27" ++ s.modelSize ++ "\x27..."))
    match c.2 with
    | some _ => (c.1, none)
    | none =>
      match env.loadModel c.1.modelSize with
      | none => (c.1, none)
      | some h =>
        ({ c.1 with whisperModel := some h,
                    events := c.1.events ++ [LogEntry.modelLoad c.1.modelSize] }, some h)

/-- `_transcribe_audio`: every exception inside is caught and turned into
`None`. -/
def transcribeAudio (env : Env) (s : St) (p : String) : St × Option String :=
  let l := loadStep env s
  match l.2 with
  | none => (l.1, none)
  | some h => transcribeBody env l.1 h p

/-- `_cleanup_temp_files`: with an explicit list, delete those files; with
`None`, delete everything in `self.temp_files` and clear the list. -/
def cleanupTempFiles (s : St) (files : Option (List String)) : St :=
  match files with
  | some fs => { s with disk := removeAll fs s.disk }
  | none => { s with disk := removeAll s.tempFiles s.disk, tempFiles := [] }

/-- The result dicts of `transcribe_youtube_url`. -/
def invalidRes : TResult := ⟨false, some "Invalid YouTube URL", none, none, none⟩

def dlFailRes : TResult := ⟨false, some "Failed to download audio", none, none, none⟩

def procFailRes : TResult := ⟨false, some "Failed to process audio", none, none, none⟩

def noSpeechRes : TResult := ⟨false, some "No speech detected in the audio", none, none, none⟩

def excRes (m : String) : TResult := ⟨false, some m, none, none, none⟩

/-- The outer `except` branch of `transcribe_youtube_url`: sweep every
registered temp file and return the exception message as the error. -/
def excPath (s : St) (m : String) : St × TResult :=
  (cleanupTempFiles s none, excRes m)

/-- Lines 71-96 of `transcribe_youtube_url`: the "Transcribing with
Whisper..." callback, `_transcribe_audio`, the `files_to_clean` sweep and
the final result shaping. -/
def finishStage (env : Env) (s : St) (url ap pp : String) : St × TResult :=
  let c3 := invokeCb env s (Event.status "Transcribing with Whisper...")
  match c3.2 with
  | some m => excPath c3.1 m
  | none =>
    let tr := transcribeAudio env c3.1 pp
    let toClean := if pp = ap then [ap] else [ap, pp]
    let s7 := cleanupTempFiles tr.1 (some toClean)
    match tr.2 with
    | none => (s7, noSpeechRes)
    | some t =>
      if pyStrip t = "" then (s7, noSpeechRes)
      else (s7, ⟨true, none, some (pyStrip t), some url, some s7.modelSize⟩)

/-- Lines 59-69 of `transcribe_youtube_url`: the "Processing audio..."
callback, `_convert_to_wav` and its falsiness check. -/
def convertStage (env : Env) (s : St) (url ap : String) : St × TResult :=
  let c2 := invokeCb env s (Event.status "Processing audio...")
  match c2.2 with
  | some m => excPath c2.1 m
  | none =>
    let cv := convertToWav env c2.1 ap
    match cv.2 with
    | none => (cv.1, procFailRes)
    | some pp =>
      if pp = "" then (cv.1, procFailRes) else finishStage env cv.1 url ap pp

/-- `transcribe_youtube_url`.  The only statements inside the `try` block
that can raise to the outer `except` are the three directly-invoked
progress callbacks (all helpers catch their own exceptions), so those are
the modelled exception sources.  `if not x` on an `Optional[str]` is falsy
for both `None` and the empty string. -/
def transcribeYoutubeUrl (env : Env) (s : St) (url : String) : St × TResult :=
  if isValidYoutubeUrl url = false then (s, invalidRes)
  else
    let c1 := invokeCb env s (Event.status "Downloading audio...")
    match c1.2 with
    | some m => excPath c1.1 m
    | none =>
      let dl := downloadAudio env c1.1
      match dl.2 with
      | none => (dl.1, dlFailRes)
      | some ap =>
        if ap = "" then (dl.1, dlFailRes) else convertStage env dl.1 url ap

/-- `get_available_models`. -/
def getAvailableModels : List String := ["tiny", "base", "small", "medium", "large"]

/-- `change_model`: `none` models the `ValueError` raise. -/
def changeModel (s : St) (size : String) : Option St :=
  if getAvailableModels.contains size then
    some { s with modelSize := size, whisperModel := none }
  else none

/-! ## save_transcription -/

/-- Environment for `save_transcription`: whether `os.makedirs` succeeds
on a given (non-empty) directory and whether the `open`/`write` succeeds
on a given path. -/
structure SaveEnv where
  mkdirOk : String → Bool
  writeOk : String → Bool

/-- `os.makedirs(d, exist_ok=True)` as a success flag.  Modelled from the
standard library: `os.makedirs("")` raises `FileNotFoundError` even with
`exist_ok=True`, because the final `os.mkdir("")` fails and `isdir("")` is
false. -/
def osMakedirs (e : SaveEnv) (d : String) : Bool :=
  if d = "" then false else e.mkdirOk d

/-- `save_transcription`: any raise is caught and returns `False`.  The
transcription text is written on success and does not influence the
outcome. -/
def saveTranscription (e : SaveEnv) (transcription fp : String) : Bool :=
  if osMakedirs e (dirnamePosix fp) then e.writeOk fp else false

/-! ## The SSE event generator of web_app.py -/

/-- A JSON message pulled from the per-client queue; only the `type` field
steers the generator. -/
structure SSEMsg where
  mtype : String
deriving DecidableEq, Repr

/-- One interaction of the generator loop with the queue: either a message
arrives, or the 30-second `asyncio.wait_for` timeout fires. -/
inductive QItem where
  | msg (m : SSEMsg)
  | timeout
deriving DecidableEq, Repr

/-- What the generator yields. -/
inductive SSEOut where
  | data (m : SSEMsg)
  | keepalive
deriving DecidableEq, Repr

/-- The `event_generator` loop of `stream_transcription`, as a function of
the finite queue/timeout script it observes: each message is yielded and
the loop breaks only after a `transcription_complete` message; each
timeout yields a keepalive and continues.  The returned flag tells whether
the loop terminated by itself (`break`) rather than exhausting the script. -/
def eventGen (items : List QItem) : List SSEOut × Bool :=
  match items with
  | [] => ([], false)
  | QItem.msg m :: rest =>
    if m.mtype = "transcription_complete" then ([SSEOut.data m], true)
    else
      let (os, t) := eventGen rest
      (SSEOut.data m :: os, t)
  | QItem.timeout :: rest =>
    let (os, t) := eventGen rest
    (SSEOut.keepalive :: os, t)

/-! ## Spec-side definitions used by claim hypotheses -/

/-- Modelled from the claim wording (C5): the model output text, flat or
concatenated from the raw segment texts. -/
def modelText (r : WhisperResult) : String :=
  match r.segments with
  | some (seg :: rest) => ((seg :: rest).map (fun x => x.text)).foldr (· ++ ·) ""
  | _ => r.text

/-- Modelled from the claim wording (C5): the model output is empty or
only whitespace after trimming. -/
def wsOnly (r : WhisperResult) : Bool := pyStrip (modelText r) = ""

/-- Modelled from the claim wording (C6): a download approach fails, by
raising or by producing no file on disk. -/
def dlFails (env : Env) (d : List String) (i : Nat) : Prop :=
  match env.dl i with
  | DlOutcome.raiseExc => True
  | DlOutcome.info p c =>
    c = false ∧ (if i = 1 then splitextRoot p ++ ".mp3" else p) ∉ d

/-- Modelled from the claim wording (C7): the transcoding step raises
(`os.path.getsize` raises, or the file is small enough to convert and the
decode/export raises). -/
def convThrows (env : Env) (p : String) : Prop :=
  env.getsize p = none ∨
    ∃ n, env.getsize p = some n ∧ n ≤ maxConvertSize ∧
      env.decode p (extFmt (pyLower (splitextExt p))) = false

/-- Shape of each output of the SSE generator when it never observes a
completion message. -/
def itemOut : QItem → SSEOut
  | QItem.msg m => SSEOut.data m
  | QItem.timeout => SSEOut.keepalive

/-! ## Concrete environments and states for example runs -/

/-- A fully successful environment: callback present and never raising,
every download approach yields `vid.webm` on disk, conversion succeeds,
and whisper returns the two-segment hello/world result. -/
def envOk : Env :=
  { hasCb := true
    cbRaises := fun _ => none
    dl := fun _ => DlOutcome.info "vid.webm" true
    getsize := fun _ => some 1000
    decode := fun _ _ => true
    wavPath := "/tmp/w.wav"
    loadModel := fun sz => some sz
    transcribeRes := fun _ _ =>
      some ⟨some [⟨"hello", 0, 1⟩, ⟨"world", 1, 2⟩], "hello world"⟩ }

/-- `envOk`, except that the progress callback raises on every invocation. -/
def envRaise : Env := { envOk with cbRaises := fun _ => some "boom" }

/-- `envOk`, except that every download approach raises. -/
def envDlFail : Env := { envOk with dl := fun _ => DlOutcome.raiseExc }

/-- `envOk`, except that whisper hears only whitespace. -/
def envWs : Env :=
  { envOk with transcribeRes := fun _ _ => some ⟨some [⟨"  ", 0, 1⟩], " "⟩ }

/-- `envOk`, except that the pydub decode/export raises. -/
def envConvFail : Env := { envOk with decode := fun _ _ => false }

/-- `envOk` without a progress callback. -/
def envNoCb : Env := { envOk with hasCb := false }

/-- A fresh transcriber object with an empty disk. -/
def st0 : St := ⟨[], [], [], none, "base", [], 0⟩

/-- A transcriber state holding a cached "base" model, as after a
successful transcription with size "base". -/
def stCached : St := ⟨[], [], [], some "base", "base", [], 0⟩

def urlOk : String := "https://www.youtube.com/watch?v=dQw4w9WgXcQ"

/-- The environment for `save_transcription` where every directory is
creatable and every path writable. -/
def saveEnvOk : SaveEnv := ⟨fun _ => true, fun _ => true⟩

/-- The transcription-side fields preserved by the segment loop: it only
touches `events` and `cbCount`. -/
def SamePipeState (a b : St) : Prop :=
  a.disk = b.disk ∧ a.tempFiles = b.tempFiles ∧ a.regLog = b.regLog ∧
    a.whisperModel = b.whisperModel ∧ a.modelSize = b.modelSize ∧
    ∃ evs, a.events = b.events ++ evs

/-! ## Utility lemmas -/

theorem mem_removeAll {f : String} {fs d : List String} :
    f ∈ removeAll fs d ↔ f ∈ d ∧ f ∉ fs := by
  simp [removeAll, List.mem_filter]

theorem mem_diskAdd {f g : String} {d : List String} (h : f ∈ diskAdd g d) :
    f ∈ d ∨ f = g := by
  unfold diskAdd at h
  split at h
  · exact Or.inl h
  · rcases List.mem_cons.mp h with h | h
    · exact Or.inr h
    · exact Or.inl h

theorem diskHas_iff {f : String} {d : List String} : diskHas f d = true ↔ f ∈ d := by
  simp [diskHas, List.elem_iff]

theorem lastIdx_eq_none {cs : List Char} {c : Char} (h : c ∉ cs) :
    lastIdx cs c = none := by
  induction cs with
  | nil => rfl
  | cons x xs ih =>
    have hx : ¬x = c := fun hc => h (hc ▸ List.mem_cons_self x xs)
    have hxs : c ∉ xs := fun hc => h (List.mem_cons_of_mem x hc)
    simp [lastIdx, ih hxs, hx]

theorem pyStripList_eq_nil {cs : List Char} (h : ∀ c ∈ cs, pyWs c = true) :
    pyStripList cs = [] := by
  unfold pyStripList
  have h1 : cs.dropWhile pyWs = [] := List.dropWhile_eq_nil_iff.mpr h
  simp [h1]

theorem pyStripList_nil_all_ws {cs : List Char} (h : pyStripList cs = []) :
    ∀ c ∈ cs, pyWs c = true := by
  unfold pyStripList at h
  have h1 : (cs.dropWhile pyWs).reverse.dropWhile pyWs = [] := by
    have h0 := congrArg List.reverse h
    simpa using h0
  have h2 : ∀ c ∈ cs.dropWhile pyWs, pyWs c = true := by
    intro c hc
    exact List.dropWhile_eq_nil_iff.mp h1 c (List.mem_reverse.mpr hc)
  intro c hc
  have hsplit : cs.takeWhile pyWs ++ cs.dropWhile pyWs = cs :=
    List.takeWhile_append_dropWhile pyWs cs
  rcases List.mem_append.mp (hsplit ▸ hc) with hc1 | hc1
  · exact List.mem_takeWhile_imp hc1
  · exact h2 c hc1

theorem pyStrip_eq_empty_of_all_ws {s : String} (h : ∀ c ∈ s.data, pyWs c = true) :
    pyStrip s = "" := by
  unfold pyStrip
  rw [pyStripList_eq_nil h]

theorem all_ws_of_pyStrip_eq_empty {s : String} (h : pyStrip s = "") :
    ∀ c ∈ s.data, pyWs c = true := by
  unfold pyStrip at h
  have hdata : pyStripList s.data = [] := congrArg String.data h
  exact pyStripList_nil_all_ws hdata

/-! ## Component specification lemmas -/

theorem invokeCb_spec (env : Env) (s : St) (e : Event) :
    invokeCb env s e = (s, none) ∨
      invokeCb env s e =
        ({ s with events := s.events ++ [LogEntry.cbCall e], cbCount := s.cbCount + 1 },
          env.cbRaises s.cbCount) := by
  by_cases h : env.hasCb <;> simp [invokeCb, h]

theorem downloadAttempt_spec (env : Env) (s : St) (i : Nat) :
    downloadAttempt env s i =
        ({ s with events := s.events ++ [LogEntry.dlAttempt i] }, none) ∨
      ∃ p d, downloadAttempt env s i =
          ({ s with events := s.events ++ [LogEntry.dlAttempt i],
                    disk := d,
                    tempFiles := s.tempFiles ++ [p],
                    regLog := s.regLog ++ [p] }, some p) ∧
        (∀ f, f ∈ d → f ∈ s.disk ∨ f = p) ∧ p ∈ d ∧ (p = "" → "" ∈ s.disk) := by
  unfold downloadAttempt
  cases hdl : env.dl i with
  | raiseExc => exact Or.inl rfl
  | info path creates =>
    simp only
    set p := (if i = 1 then splitextRoot path ++ ".mp3" else path) with hp
    cases creates with
    | false =>
      simp only [Bool.false_eq_true, if_false]
      by_cases hex : diskHas p s.disk
      · refine Or.inr ⟨p, s.disk, ?_, ?_, ?_, ?_⟩
        · simp [hex]
        · exact fun f hf => Or.inl hf
        · exact diskHas_iff.mp hex
        · intro he; exact he ▸ diskHas_iff.mp hex
      · simp [hex]
    | true =>
      simp only [if_true]
      by_cases hex : diskHas p (diskAdd p s.disk)
      · refine Or.inr ⟨p, diskAdd p s.disk, ?_, ?_, ?_, ?_⟩
        · simp [hex]
        · exact fun f hf => mem_diskAdd hf
        · exact diskHas_iff.mp hex
        · intro he
          have h0 : diskAdd p s.disk = s.disk := by simp [diskAdd, he]
          have := diskHas_iff.mp hex
          rw [h0] at this
          exact he ▸ this
      · have hpe : p = "" := by
          by_contra hne
          have : p ∈ diskAdd p s.disk := by simp [diskAdd, hne]
          exact hex (diskHas_iff.mpr this)
        have h0 : diskAdd p s.disk = s.disk := by simp [diskAdd, hpe]
        rw [h0] at hex ⊢
        simp [hex]

theorem downloadAudio_spec (env : Env) (s : St) :
    (∃ evs, downloadAudio env s = ({ s with events := s.events ++ evs }, none)) ∨
      ∃ p d evs, downloadAudio env s =
          ({ s with events := s.events ++ evs,
                    disk := d,
                    tempFiles := s.tempFiles ++ [p],
                    regLog := s.regLog ++ [p] }, some p) ∧
        (∀ f, f ∈ d → f ∈ s.disk ∨ f = p) ∧ p ∈ d ∧ (p = "" → "" ∈ s.disk) := by
  unfold downloadAudio
  rcases downloadAttempt_spec env s 1 with h1 | ⟨p, d, h1, hsub, hmem, hemp⟩
  · rw [h1]
    dsimp only
    rcases downloadAttempt_spec env { s with events := s.events ++ [LogEntry.dlAttempt 1] } 2
      with h2 | ⟨p, d, h2, hsub, hmem, hemp⟩
    · rw [h2]
      dsimp only
      rcases downloadAttempt_spec env
          { s with events := s.events ++ [LogEntry.dlAttempt 1] ++ [LogEntry.dlAttempt 2] } 3
        with h3 | ⟨p, d, h3, hsub, hmem, hemp⟩
      · rw [h3]
        refine Or.inl ⟨[LogEntry.dlAttempt 1, LogEntry.dlAttempt 2, LogEntry.dlAttempt 3], ?_⟩
        simp
      · rw [h3]
        refine Or.inr ⟨p, d,
          [LogEntry.dlAttempt 1, LogEntry.dlAttempt 2, LogEntry.dlAttempt 3], ?_,
          by simpa using hsub, hmem, by simpa using hemp⟩
        simp
    · rw [h2]
      refine Or.inr ⟨p, d, [LogEntry.dlAttempt 1, LogEntry.dlAttempt 2], ?_,
        by simpa using hsub, hmem, by simpa using hemp⟩
      simp
  · rw [h1]
    exact Or.inr ⟨p, d, [LogEntry.dlAttempt 1], by simp [h1], hsub, hmem, hemp⟩

theorem convertToWav_spec (env : Env) (s : St) (p : String) :
    convertToWav env s p = (s, some p) ∨
      convertToWav env s p =
        ({ s with disk := diskAdd env.wavPath s.disk,
                  tempFiles := s.tempFiles ++ [env.wavPath],
                  regLog := s.regLog ++ [env.wavPath] }, some env.wavPath) := by
  unfold convertToWav
  cases hg : env.getsize p with
  | none => exact Or.inl rfl
  | some sz =>
    by_cases hsz : sz > maxConvertSize
    · simp [hsz]
    · by_cases hd : env.decode p (extFmt (pyLower (splitextExt p))) <;> simp [hsz, hd]

theorem invokeCb_disk (env : Env) (s : St) (e : Event) :
    (invokeCb env s e).1.disk = s.disk := by
  by_cases h : env.hasCb <;> simp [invokeCb, h]

theorem invokeCb_tempFiles (env : Env) (s : St) (e : Event) :
    (invokeCb env s e).1.tempFiles = s.tempFiles := by
  by_cases h : env.hasCb <;> simp [invokeCb, h]

theorem invokeCb_regLog (env : Env) (s : St) (e : Event) :
    (invokeCb env s e).1.regLog = s.regLog := by
  by_cases h : env.hasCb <;> simp [invokeCb, h]

theorem invokeCb_whisperModel (env : Env) (s : St) (e : Event) :
    (invokeCb env s e).1.whisperModel = s.whisperModel := by
  by_cases h : env.hasCb <;> simp [invokeCb, h]

theorem invokeCb_modelSize (env : Env) (s : St) (e : Event) :
    (invokeCb env s e).1.modelSize = s.modelSize := by
  by_cases h : env.hasCb <;> simp [invokeCb, h]

theorem invokeCb_events (env : Env) (s : St) (e : Event) :
    ∃ evs, (invokeCb env s e).1.events = s.events ++ evs := by
  by_cases h : env.hasCb
  · exact ⟨[LogEntry.cbCall e], by simp [invokeCb, h]⟩
  · exact ⟨[], by simp [invokeCb, h]⟩

theorem samePipeState_refl (a : St) : SamePipeState a a :=
  ⟨rfl, rfl, rfl, rfl, rfl, [], by simp⟩

theorem samePipeState_trans {a b c : St} (h1 : SamePipeState a b)
    (h2 : SamePipeState b c) : SamePipeState a c := by
  obtain ⟨d1, t1, r1, w1, m1, e1, he1⟩ := h1
  obtain ⟨d2, t2, r2, w2, m2, e2, he2⟩ := h2
  exact ⟨d1.trans d2, t1.trans t2, r1.trans r2, w1.trans w2, m1.trans m2,
    e2 ++ e1, by rw [he1, he2, List.append_assoc]⟩

theorem invokeCb_samePipeState (env : Env) (s : St) (e : Event) :
    SamePipeState (invokeCb env s e).1 s :=
  ⟨invokeCb_disk env s e, invokeCb_tempFiles env s e, invokeCb_regLog env s e,
    invokeCb_whisperModel env s e, invokeCb_modelSize env s e, invokeCb_events env s e⟩

theorem segLoop_pres (env : Env) (segs : List Segment) :
    ∀ (s : St) (i total : Nat) (acc : String),
      SamePipeState (segLoop env s segs i total acc).1 s := by
  induction segs with
  | nil =>
    intro s i total acc
    exact samePipeState_refl s
  | cons seg rest ih =>
    intro s i total acc
    unfold segLoop
    by_cases hst : pyStrip seg.text = ""
    · simpa [hst] using ih s (i + 1) total acc
    · simp only [hst, if_false]
      cases hc : (invokeCb env s
          (Event.segment (pyStrip seg.text) seg.start seg.stop (i + 1) total)).2 with
      | some m =>
        simpa [hc] using invokeCb_samePipeState env s
          (Event.segment (pyStrip seg.text) seg.start seg.stop (i + 1) total)
      | none =>
        simp only [hc]
        exact samePipeState_trans
          (ih _ (i + 1) total (acc ++ pyStrip seg.text ++ " "))
          (invokeCb_samePipeState env s _)

theorem transcribeBody_pres (env : Env) (s : St) (h p : String) :
    SamePipeState (transcribeBody env s h p).1 s := by
  unfold transcribeBody
  cases hc1 : (invokeCb env s (Event.status "Processing audio with Whisper...")).2 with
  | some m => simpa [hc1] using invokeCb_samePipeState env s _
  | none =>
    simp only [hc1]
    cases hres : env.transcribeRes h p with
    | none => simpa using invokeCb_samePipeState env s _
    | some res =>
      cases hsegs : res.segments with
      | none =>
        simp only [hsegs]
        split <;> exact invokeCb_samePipeState env s _
      | some segs =>
        cases segs with
        | nil =>
          simp only [hsegs]
          split <;> exact invokeCb_samePipeState env s _
        | cons seg rest =>
          simp only [hsegs]
          cases hc2 : (invokeCb env (invokeCb env s
              (Event.status "Processing audio with Whisper...")).1
              (Event.status ("Found " ++ toString (seg :: rest).length ++
                " segments, streaming..."))).2 with
          | some m =>
            simp only [hc2]
            exact samePipeState_trans (invokeCb_samePipeState env _ _)
              (invokeCb_samePipeState env s _)
          | none =>
            simp only [hc2]
            have hbase : SamePipeState (invokeCb env (invokeCb env s
                (Event.status "Processing audio with Whisper...")).1
                (Event.status ("Found " ++ toString (seg :: rest).length ++
                  " segments, streaming..."))).1 s :=
              samePipeState_trans (invokeCb_samePipeState env _ _)
                (invokeCb_samePipeState env s _)
            have hloop := segLoop_pres env (seg :: rest) (invokeCb env (invokeCb env s
                (Event.status "Processing audio with Whisper...")).1
                (Event.status ("Found " ++ toString (seg :: rest).length ++
                  " segments, streaming..."))).1 0 (seg :: rest).length ""
            cases hlp : (segLoop env (invokeCb env (invokeCb env s
                (Event.status "Processing audio with Whisper...")).1
                (Event.status ("Found " ++ toString (seg :: rest).length ++
                  " segments, streaming..."))).1 (seg :: rest) 0
                (seg :: rest).length "").2 with
            | none =>
              simp only [hlp]
              exact samePipeState_trans hloop hbase
            | some full =>
              simp only [hlp]
              split <;> exact samePipeState_trans hloop hbase

theorem loadStep_pres (env : Env) (s : St) :
    (loadStep env s).1.disk = s.disk ∧ (loadStep env s).1.tempFiles = s.tempFiles ∧
      (loadStep env s).1.regLog = s.regLog ∧ (loadStep env s).1.modelSize = s.modelSize ∧
      ∃ evs, (loadStep env s).1.events = s.events ++ evs := by
  unfold loadStep
  cases hw : s.whisperModel with
  | some h => exact ⟨rfl, rfl, rfl, rfl, [], by simp⟩
  | none =>
    simp only
    cases hc : (invokeCb env s
        (Event.status ("Loading Whisper model \x27" ++ s.modelSize ++ "\x27..."))).2 with
    | some m =>
      simp only [hc]
      exact ⟨invokeCb_disk env s _, invokeCb_tempFiles env s _, invokeCb_regLog env s _,
        invokeCb_modelSize env s _, invokeCb_events env s _⟩
    | none =>
      simp only [hc]
      cases hl : env.loadModel (invokeCb env s
          (Event.status ("Loading Whisper model \x27" ++ s.modelSize ++ "\x27..."))).1.modelSize with
      | none =>
        simp only [hl]
        exact ⟨invokeCb_disk env s _, invokeCb_tempFiles env s _, invokeCb_regLog env s _,
          invokeCb_modelSize env s _, invokeCb_events env s _⟩
      | some h =>
        simp only [hl]
        refine ⟨by simpa using invokeCb_disk env s _,
          by simpa using invokeCb_tempFiles env s _,
          by simpa using invokeCb_regLog env s _,
          by simpa using invokeCb_modelSize env s _, ?_⟩
        obtain ⟨evs, hevs⟩ := invokeCb_events env s
          (Event.status ("Loading Whisper model \x27" ++ s.modelSize ++ "\x27..."))
        exact ⟨evs ++ [LogEntry.modelLoad (invokeCb env s
          (Event.status ("Loading Whisper model \x27" ++ s.modelSize ++
            "\x27..."))).1.modelSize], by simp [hevs]⟩

/-- `_transcribe_audio` touches neither the disk nor the registered
temp-file lists, and can only append to the event log. -/
theorem transcribeAudio_pres (env : Env) (s : St) (p : String) :
    (transcribeAudio env s p).1.disk = s.disk ∧
      (transcribeAudio env s p).1.tempFiles = s.tempFiles ∧
      (transcribeAudio env s p).1.regLog = s.regLog ∧
      (transcribeAudio env s p).1.modelSize = s.modelSize ∧
      ∃ evs, (transcribeAudio env s p).1.events = s.events ++ evs := by
  unfold transcribeAudio
  obtain ⟨hd, ht, hr, hm, evs, hevs⟩ := loadStep_pres env s
  cases hl : (loadStep env s).2 with
  | none =>
    simp only [hl]
    exact ⟨hd, ht, hr, hm, evs, hevs⟩
  | some h =>
    simp only [hl]
    obtain ⟨bd, bt, br, bw, bm, bevs, bhevs⟩ := transcribeBody_pres env (loadStep env s).1 h p
    exact ⟨bd.trans hd, bt.trans ht, br.trans hr, bm.trans hm,
      evs ++ bevs, by rw [bhevs, hevs, List.append_assoc]⟩

/-! ## Cleanup lemmas -/

theorem cleanup_some_disk (s : St) (fs : List String) :
    (cleanupTempFiles s (some fs)).disk = removeAll fs s.disk := rfl

theorem cleanup_none_disk (s : St) :
    (cleanupTempFiles s none).disk = removeAll s.tempFiles s.disk := rfl

theorem not_mem_removeAll {f : String} {fs d : List String} (h : f ∈ fs) :
    f ∉ removeAll fs d := fun hmem => (mem_removeAll.mp hmem).2 h

/-! ## C1 stage lemmas -/

/-- A sweep of `toClean` leaves no registered file behind and only files
that were in `base`, provided registration is covered by the sweep and the
disk only grew by registered files. -/
theorem sweep_goals {X : St} {toClean base : List String}
    (hclean : ∀ f, f ∈ X.regLog → f ∈ toClean)
    (hdisk : ∀ f, f ∈ X.disk → f ∈ base ∨ f ∈ toClean) :
    (∀ f, f ∈ X.regLog → f ∉ removeAll toClean X.disk) ∧
      (∀ f, f ∈ removeAll toClean X.disk → f ∈ base) := by
  constructor
  · intro f hf
    exact not_mem_removeAll (hclean f hf)
  · intro f hf
    obtain ⟨hfd, hnf⟩ := mem_removeAll.mp hf
    rcases hdisk f hfd with h | h
    · exact h
    · exact absurd h hnf

theorem finishStage_sweep (env : Env) (Y : St) (url ap pp : String)
    (base : List String)
    (hrt : ∀ f, f ∈ Y.regLog → f ∈ Y.tempFiles)
    (hrc : ∀ f, f ∈ Y.regLog → f = ap ∨ f = pp)
    (hdisk : ∀ f, f ∈ Y.disk → f ∈ base ∨ f ∈ Y.regLog) :
    (∀ f, f ∈ (finishStage env Y url ap pp).1.regLog →
        f ∉ (finishStage env Y url ap pp).1.disk) ∧
      (∀ f, f ∈ (finishStage env Y url ap pp).1.disk → f ∈ base) := by
  unfold finishStage
  have hc3d := invokeCb_disk env Y (Event.status "Transcribing with Whisper...")
  have hc3t := invokeCb_tempFiles env Y (Event.status "Transcribing with Whisper...")
  have hc3r := invokeCb_regLog env Y (Event.status "Transcribing with Whisper...")
  cases hc3 : (invokeCb env Y (Event.status "Transcribing with Whisper...")).2 with
  | some m =>
    simp only [hc3, excPath, cleanupTempFiles]
    refine sweep_goals ?_ ?_
    · intro f hf
      rw [hc3r] at hf
      rw [hc3t]
      exact hrt f hf
    · intro f hf
      rw [hc3d] at hf
      rw [hc3t]
      rcases hdisk f hf with h | h
      · exact Or.inl h
      · exact Or.inr (hrt f h)
  | none =>
    simp only [hc3]
    obtain ⟨htd, htt, htr, _, _⟩ := transcribeAudio_pres env
      (invokeCb env Y (Event.status "Transcribing with Whisper...")).1 pp
    have hdisk2 : ∀ f, f ∈ (transcribeAudio env
        (invokeCb env Y (Event.status "Transcribing with Whisper...")).1 pp).1.disk →
        f ∈ base ∨ f ∈ (if pp = ap then [ap] else [ap, pp]) := by
      intro f hf
      rw [htd, hc3d] at hf
      rcases hdisk f hf with h | h
      · exact Or.inl h
      · refine Or.inr ?_
        rcases hrc f h with rfl | rfl
        · by_cases hpa : pp = f <;> simp [hpa]
        · by_cases hpa : f = ap <;> simp [hpa]
    have hclean2 : ∀ f, f ∈ (transcribeAudio env
        (invokeCb env Y (Event.status "Transcribing with Whisper...")).1 pp).1.regLog →
        f ∈ (if pp = ap then [ap] else [ap, pp]) := by
      intro f hf
      rw [htr, hc3r] at hf
      rcases hrc f hf with rfl | rfl
      · by_cases hpa : pp = f <;> simp [hpa]
      · by_cases hpa : f = ap <;> simp [hpa]
    cases htr2 : (transcribeAudio env
        (invokeCb env Y (Event.status "Transcribing with Whisper...")).1 pp).2 with
    | none =>
      simp only [htr2, cleanupTempFiles]
      exact sweep_goals hclean2 hdisk2
    | some t =>
      simp only [htr2, cleanupTempFiles]
      by_cases hts : pyStrip t = "" <;> simp only [hts, if_true, if_false] <;>
        exact sweep_goals hclean2 hdisk2

theorem convertStage_sweep (env : Env) (Y : St) (url ap : String)
    (base : List String)
    (hW : env.wavPath ≠ "")
    (hap : ap ≠ "")
    (hreg : Y.regLog = [ap])
    (hrt : ap ∈ Y.tempFiles)
    (hdisk : ∀ f, f ∈ Y.disk → f ∈ base ∨ f = ap) :
    (∀ f, f ∈ (convertStage env Y url ap).1.regLog →
        f ∉ (convertStage env Y url ap).1.disk) ∧
      (∀ f, f ∈ (convertStage env Y url ap).1.disk → f ∈ base) := by
  unfold convertStage
  have hc2d := invokeCb_disk env Y (Event.status "Processing audio...")
  have hc2t := invokeCb_tempFiles env Y (Event.status "Processing audio...")
  have hc2r := invokeCb_regLog env Y (Event.status "Processing audio...")
  cases hc2 : (invokeCb env Y (Event.status "Processing audio...")).2 with
  | some m =>
    simp only [hc2, excPath, cleanupTempFiles]
    refine sweep_goals ?_ ?_
    · intro f hf
      rw [hc2r, hreg] at hf
      rw [hc2t]
      rcases List.mem_singleton.mp hf with rfl
      exact hrt
    · intro f hf
      rw [hc2d] at hf
      rw [hc2t]
      rcases hdisk f hf with h | rfl
      · exact Or.inl h
      · exact Or.inr hrt
  | none =>
    simp only [hc2]
    rcases convertToWav_spec env (invokeCb env Y (Event.status "Processing audio...")).1 ap
      with hcv | hcv
    · rw [hcv]
      simp only [if_neg hap]
      refine finishStage_sweep env _ url ap ap base ?_ ?_ ?_
      · intro f hf
        rw [hc2r, hreg] at hf
        rw [hc2t]
        rcases List.mem_singleton.mp hf with rfl
        exact hrt
      · intro f hf
        rw [hc2r, hreg] at hf
        exact Or.inl (List.mem_singleton.mp hf)
      · intro f hf
        rw [hc2d] at hf
        rw [hc2r, hreg]
        rcases hdisk f hf with h | rfl
        · exact Or.inl h
        · exact Or.inr (List.mem_singleton.mpr rfl)
    · rw [hcv]
      simp only [if_neg hW]
      refine finishStage_sweep env _ url ap env.wavPath base ?_ ?_ ?_
      · intro f hf
        simp only [hc2r, hreg] at hf
        simp only [hc2t]
        rcases List.mem_append.mp hf with h | h
        · rcases List.mem_singleton.mp h with rfl
          exact List.mem_append.mpr (Or.inl hrt)
        · exact List.mem_append.mpr (Or.inr h)
      · intro f hf
        simp only [hc2r, hreg] at hf
        rcases List.mem_append.mp hf with h | h
        · exact Or.inl (List.mem_singleton.mp h)
        · exact Or.inr (List.mem_singleton.mp h)
      · intro f hf
        simp only [hc2r, hreg]
        rcases mem_diskAdd hf with h | rfl
        · rw [hc2d] at h
          rcases hdisk f h with h1 | rfl
          · exact Or.inl h1
          · exact Or.inr (by simp)
        · exact Or.inr (by simp)

/-- C1: For every call to `transcribe_youtube_url` — success, structured
error, or internal exception — every temporary file registered during
download or conversion is removed from disk before the call returns, and
the call leaves no new file on disk.  Hypotheses: `tempfile.mktemp` never
returns the empty path, no file with an empty name exists, and the ghost
registration log starts empty. -/
theorem c1_temp_files_swept (env : Env) (s : St) (url : String)
    (hW : env.wavPath ≠ "") (hE : "" ∉ s.disk) (hR : s.regLog = []) :
    (∀ f, f ∈ (transcribeYoutubeUrl env s url).1.regLog →
        f ∉ (transcribeYoutubeUrl env s url).1.disk) ∧
      (∀ f, f ∈ (transcribeYoutubeUrl env s url).1.disk → f ∈ s.disk) := by
  unfold transcribeYoutubeUrl
  by_cases hv : isValidYoutubeUrl url = false
  · rw [if_pos hv]
    refine ⟨fun f hf => ?_, fun f hf => hf⟩
    rw [hR] at hf
    cases hf
  · rw [if_neg hv]
    have hc1d := invokeCb_disk env s (Event.status "Downloading audio...")
    have hc1t := invokeCb_tempFiles env s (Event.status "Downloading audio...")
    have hc1r := invokeCb_regLog env s (Event.status "Downloading audio...")
    cases hc1 : (invokeCb env s (Event.status "Downloading audio...")).2 with
    | some m =>
      simp only [hc1, excPath, cleanupTempFiles]
      refine sweep_goals ?_ ?_
      · intro f hf
        rw [hc1r, hR] at hf
        cases hf
      · intro f hf
        rw [hc1d] at hf
        exact Or.inl hf
    | none =>
      simp only [hc1]
      rcases downloadAudio_spec env (invokeCb env s (Event.status "Downloading audio...")).1
        with ⟨evs, hdl⟩ | ⟨p, d, evs, hdl, hsub, hmem, hemp⟩
      · rw [hdl]
        refine ⟨fun f hf => ?_, fun f hf => ?_⟩
        · simp only [hc1r, hR] at hf
          cases hf
        · simp only [hc1d] at hf
          exact hf
      · rw [hdl]
        have hpne : p ≠ "" := by
          intro hpe
          exact hE (by rw [← hc1d]; exact hemp hpe)
        simp only [if_neg hpne]
        refine convertStage_sweep env _ url p s.disk hW hpne ?_ ?_ ?_
        · simp [hc1r, hR]
        · simp
        · intro f hf
          simp only at hf
          rcases hsub f hf with h | h
          · rw [hc1d] at h
            exact Or.inl h
          · exact Or.inr h

/-! ## Callback and download computation lemmas -/

theorem invokeCb_snd (env : Env) (s : St) (e : Event) :
    (invokeCb env s e).2 = if env.hasCb then env.cbRaises s.cbCount else none := by
  by_cases h : env.hasCb <;> simp [invokeCb, h]

theorem invokeCb_none {env : Env} (hcb : ∀ k, env.cbRaises k = none) (s : St) (e : Event) :
    (invokeCb env s e).2 = none := by
  rw [invokeCb_snd]
  by_cases h : env.hasCb <;> simp [h, hcb]

theorem downloadAttempt_fails (env : Env) (s : St) (i : Nat)
    (hf : dlFails env s.disk i) :
    downloadAttempt env s i =
      ({ s with events := s.events ++ [LogEntry.dlAttempt i] }, none) := by
  unfold downloadAttempt
  unfold dlFails at hf
  cases hdl : env.dl i with
  | raiseExc => rfl
  | info p c =>
    rw [hdl] at hf
    obtain ⟨hc, hnm⟩ := hf
    subst hc
    have hex : ¬ diskHas (if i = 1 then splitextRoot p ++ ".mp3" else p) s.disk = true :=
      fun h => hnm (diskHas_iff.mp h)
    simp [hex]

theorem downloadAudio_fails (env : Env) (s : St)
    (h1 : dlFails env s.disk 1) (h2 : dlFails env s.disk 2)
    (h3 : dlFails env s.disk 3) :
    downloadAudio env s =
      ({ s with events := s.events ++
          [LogEntry.dlAttempt 1, LogEntry.dlAttempt 2, LogEntry.dlAttempt 3] }, none) := by
  unfold downloadAudio
  rw [downloadAttempt_fails env s 1 h1]
  dsimp only
  rw [downloadAttempt_fails env
    { s with events := s.events ++ [LogEntry.dlAttempt 1] } 2 h2]
  dsimp only
  rw [downloadAttempt_fails env
    { s with events := s.events ++ [LogEntry.dlAttempt 1] ++ [LogEntry.dlAttempt 2] } 3 h3]
  simp

/-- C6: the downloader tries its three configurations in fixed order; when
every configuration fails (raises or leaves no file on disk) the call
returns `success=false` with the download-failure error and nothing else. -/
theorem c6_download_ladder (env : Env) (s : St) (url : String)
    (hv : isValidYoutubeUrl url = true)
    (hcb : ∀ k, env.cbRaises k = none)
    (hfail : ∀ i, 1 ≤ i → i ≤ 3 → dlFails env s.disk i) :
    ((downloadAudio env s).2 = none ∧
      (downloadAudio env s).1.events = s.events ++
        [LogEntry.dlAttempt 1, LogEntry.dlAttempt 2, LogEntry.dlAttempt 3]) ∧
      (transcribeYoutubeUrl env s url).2 = dlFailRes := by
  have h1 := hfail 1 (by omega) (by omega)
  have h2 := hfail 2 (by omega) (by omega)
  have h3 := hfail 3 (by omega) (by omega)
  refine ⟨⟨?_, ?_⟩, ?_⟩
  · rw [downloadAudio_fails env s h1 h2 h3]
  · rw [downloadAudio_fails env s h1 h2 h3]
  · unfold transcribeYoutubeUrl
    rw [if_neg (by simp [hv])]
    cases hc1 : (invokeCb env s (Event.status "Downloading audio...")).2 with
    | some m =>
      rw [invokeCb_none hcb] at hc1
      cases hc1
    | none =>
      simp only [hc1]
      have hdisk := invokeCb_disk env s (Event.status "Downloading audio...")
      have h1x : dlFails env (invokeCb env s (Event.status "Downloading audio...")).1.disk 1 := by
        rw [hdisk]; exact h1
      have h2x : dlFails env (invokeCb env s (Event.status "Downloading audio...")).1.disk 2 := by
        rw [hdisk]; exact h2
      have h3x : dlFails env (invokeCb env s (Event.status "Downloading audio...")).1.disk 3 := by
        rw [hdisk]; exact h3
      rw [downloadAudio_fails env _ h1x h2x h3x]

/-! ## C2: the validator -/

/-- C2 (counterexample): `youtu.com` is not one of the recognized YouTube
URL shapes, yet the validator accepts it and the call proceeds to the
download step, refuting "every string outside the recognized shapes is
rejected". -/
theorem c2_counterexample :
    recognizedShapeSpec "youtu.com/watch?v=dQw4w9WgXcQ" = false ∧
      isValidYoutubeUrl "youtu.com/watch?v=dQw4w9WgXcQ" = true ∧
      LogEntry.dlAttempt 1 ∈
        (transcribeYoutubeUrl envOk st0 "youtu.com/watch?v=dQw4w9WgXcQ").1.events := by
  refine ⟨by decide, by decide, by decide⟩

/-- C2 (amended): for every string the validator's regex rejects,
`transcribe_youtube_url` returns `success=false` with the invalid-URL
error, the state is untouched and no download is attempted; the regex,
however, overapproximates the recognized YouTube shapes (see the
counterexample). -/
theorem c2_invalid_url_rejected (env : Env) (s : St) (url : String)
    (hv : isValidYoutubeUrl url = false) :
    transcribeYoutubeUrl env s url = (s, invalidRes) := by
  unfold transcribeYoutubeUrl
  rw [if_pos hv]

/-- Witness for `c2_invalid_url_rejected` at a concrete rejected string. -/
theorem c2_invalid_url_rejected_witness :
    transcribeYoutubeUrl envOk st0 "not a url" = (st0, invalidRes) :=
  c2_invalid_url_rejected envOk st0 "not a url" (by decide)

/-! ## C3: exceptions raised by the progress callback -/

/-- C3 (counterexample): with the same environment except that the
callback raises, the call returns a failure carrying the exception message
while the non-raising run succeeds — the orchestration is aborted by the
callback exception, refuting "same success/failure outcome". -/
theorem c3_counterexample :
    (transcribeYoutubeUrl envRaise st0 urlOk).2 = excRes "boom" ∧
      (transcribeYoutubeUrl envOk st0 urlOk).2.success = true ∧
      envRaise = { envOk with cbRaises := fun _ => some "boom" } :=
  ⟨by decide, by decide, rfl⟩

/-- C3 (amended): an exception raised inside the progress callback never
escapes `transcribe_youtube_url`: the call still returns a structured
result whose error is the exception message, with every registered temp
file swept — but the remaining stages are skipped (no download attempt is
logged), so the outcome can differ from a non-raising callback's. -/
theorem c3_callback_exception_contained (env : Env) (s : St) (url m : String)
    (hv : isValidYoutubeUrl url = true) (hcb : env.hasCb = true)
    (hraise : env.cbRaises s.cbCount = some m) :
    transcribeYoutubeUrl env s url =
      ({ s with
          events := s.events ++ [LogEntry.cbCall (Event.status "Downloading audio...")],
          cbCount := s.cbCount + 1,
          disk := removeAll s.tempFiles s.disk,
          tempFiles := [] }, excRes m) := by
  unfold transcribeYoutubeUrl
  rw [if_neg (by simp [hv])]
  simp only [invokeCb, hcb, if_true, hraise]
  rfl

/-- Witness for `c3_callback_exception_contained`. -/
theorem c3_callback_exception_contained_witness :
    transcribeYoutubeUrl envRaise st0 urlOk =
      ({ st0 with
          events := st0.events ++ [LogEntry.cbCall (Event.status "Downloading audio...")],
          cbCount := st0.cbCount + 1,
          disk := removeAll st0.tempFiles st0.disk,
          tempFiles := [] }, excRes "boom") :=
  c3_callback_exception_contained envRaise st0 urlOk "boom" (by decide) rfl rfl

/-! ## C10: save_transcription on bare filenames -/

theorem dirnamePosix_no_slash {fp : String} (h : '/' ∉ fp.data) :
    dirnamePosix fp = "" := by
  unfold dirnamePosix
  simp only [lastIdx_eq_none h]

/-- C10: for every path with no directory component, `save_transcription`
returns `False` (because `os.makedirs` is handed the empty directory
name), so a save can only succeed when the path contains a `/`. -/
theorem c10_bare_filename_save_fails (e : SaveEnv) (txt fp : String) :
    ('/' ∉ fp.data → saveTranscription e txt fp = false) ∧
      (saveTranscription e txt fp = true → '/' ∈ fp.data) := by
  constructor
  · intro h
    unfold saveTranscription osMakedirs
    rw [dirnamePosix_no_slash h]
    simp
  · intro hs
    by_contra h
    have hfail : saveTranscription e txt fp = false := by
      unfold saveTranscription osMakedirs
      rw [dirnamePosix_no_slash h]
      simp
    rw [hs] at hfail
    cases hfail

/-- Witness for `c10_bare_filename_save_fails` at the CLI-style default
filename. -/
theorem c10_bare_filename_save_fails_witness :
    saveTranscription saveEnvOk "hello world" "transcription_dQw4w9WgXcQ.txt" = false :=
  (c10_bare_filename_save_fails saveEnvOk "hello world"
    "transcription_dQw4w9WgXcQ.txt").1 (by decide)

/-- Witness for `c1_temp_files_swept` on a fully successful concrete run. -/
theorem c1_temp_files_swept_witness :
    (∀ f, f ∈ (transcribeYoutubeUrl envOk st0 urlOk).1.regLog →
        f ∉ (transcribeYoutubeUrl envOk st0 urlOk).1.disk) ∧
      (∀ f, f ∈ (transcribeYoutubeUrl envOk st0 urlOk).1.disk → f ∈ st0.disk) :=
  c1_temp_files_swept envOk st0 urlOk (by decide) (by simp [st0]) rfl

/-- Witness for `c6_download_ladder` with all three approaches raising. -/
theorem c6_download_ladder_witness :
    ((downloadAudio envDlFail st0).2 = none ∧
      (downloadAudio envDlFail st0).1.events = st0.events ++
        [LogEntry.dlAttempt 1, LogEntry.dlAttempt 2, LogEntry.dlAttempt 3]) ∧
      (transcribeYoutubeUrl envDlFail st0 urlOk).2 = dlFailRes :=
  c6_download_ladder envDlFail st0 urlOk (by decide) (fun _ => rfl)
    (fun _ _ _ => trivial)

/-! ## C4: segment streaming -/

/-- C4: whenever the cached model returns the hello/world segment list,
`_transcribe_audio` returns the final string "hello world" and emits
exactly two structured segment events, in order, after the two status
events and before returning. -/
theorem c4_segment_streaming (env : Env) (s : St) (p h txt : String)
    (hcb : ∀ k, env.cbRaises k = none) (hhas : env.hasCb = true)
    (hm : s.whisperModel = some h)
    (hres : env.transcribeRes h p =
      some ⟨some [⟨"hello", 0, 1⟩, ⟨"world", 1, 2⟩], txt⟩) :
    transcribeAudio env s p =
      ({ s with
          events := s.events ++
            [LogEntry.cbCall (Event.status "Processing audio with Whisper..."),
             LogEntry.cbCall (Event.status "Found 2 segments, streaming..."),
             LogEntry.cbCall (Event.segment "hello" 0 1 1 2),
             LogEntry.cbCall (Event.segment "world" 1 2 2 2)],
          cbCount := s.cbCount + 4 }, some "hello world") := by
  have e1 : pyStrip "hello" = "hello" := by decide
  have e2 : pyStrip "world" = "world" := by decide
  have e3 : ("" ++ "hello" ++ " " : String) = "hello " := by decide
  have e4 : ("hello " ++ "world" ++ " " : String) = "hello world " := by decide
  have e5 : pyStrip "hello world " = "hello world" := by decide
  have e6 : ("Found " ++ toString (2 : Nat) ++ " segments, streaming..." : String) =
      "Found 2 segments, streaming..." := by decide
  unfold transcribeAudio loadStep
  rw [hm]
  dsimp only
  unfold transcribeBody
  simp only [invokeCb, hhas, if_true, hcb, hres]
  simp only [segLoop, e1, e2, e3, e4, e5, List.length_cons, List.length_nil]
  simp only [invokeCb, hhas, if_true, hcb]
  simp [e3, e4, e5, e6, List.append_assoc, hm]

/-- Witness for `c4_segment_streaming` on the concrete environment. -/
theorem c4_segment_streaming_witness :
    transcribeAudio envOk stCached "a.wav" =
      ({ stCached with
          events := stCached.events ++
            [LogEntry.cbCall (Event.status "Processing audio with Whisper..."),
             LogEntry.cbCall (Event.status "Found 2 segments, streaming..."),
             LogEntry.cbCall (Event.segment "hello" 0 1 1 2),
             LogEntry.cbCall (Event.segment "world" 1 2 2 2)],
          cbCount := stCached.cbCount + 4 }, some "hello world") :=
  c4_segment_streaming envOk stCached "a.wav" "base" "hello world"
    (fun _ => rfl) rfl rfl rfl

/-! ## C5: whitespace-only model output -/

theorem data_append (a b : String) : (a ++ b).data = a.data ++ b.data := rfl

theorem append_mp3_ne_empty (a : String) : a ++ ".mp3" ≠ "" := by
  intro h
  have hd := congrArg String.data h
  rw [data_append] at hd
  simp at hd

theorem mem_concatTexts {segs : List Segment} {sg : Segment} (hm : sg ∈ segs) :
    ∀ c ∈ sg.text.data,
      c ∈ ((segs.map (fun x => x.text)).foldr (· ++ ·) "").data := by
  induction segs with
  | nil => cases hm
  | cons a rest ih =>
    intro c hc
    simp only [List.map_cons, List.foldr_cons, data_append, List.mem_append]
    rcases List.mem_cons.mp hm with rfl | hm1
    · exact Or.inl hc
    · exact Or.inr (ih hm1 c hc)

theorem segLoop_all_ws (env : Env) (segs : List Segment)
    (hws : ∀ sg ∈ segs, pyStrip sg.text = "") :
    ∀ (s : St) (i total : Nat) (acc : String),
      segLoop env s segs i total acc = (s, some acc) := by
  induction segs with
  | nil => intro s i total acc; rfl
  | cons a rest ih =>
    intro s i total acc
    unfold segLoop
    rw [if_pos (hws a (List.mem_cons_self a rest))]
    exact ih (fun sg h => hws sg (List.mem_cons_of_mem a h)) s (i + 1) total acc

/-- Under a whitespace-only model output (for every audio path), the
transcription step always yields `None`. -/
theorem transcribeAudio_ws_none (env : Env) (s : St) (p : String)
    (hcb : ∀ k, env.cbRaises k = none)
    (hws : ∀ h r, env.transcribeRes h p = some r → wsOnly r = true) :
    (transcribeAudio env s p).2 = none := by
  unfold transcribeAudio
  cases hl : (loadStep env s).2 with
  | none => simp [hl]
  | some h =>
    simp only [hl]
    unfold transcribeBody
    simp only [invokeCb_none hcb]
    cases hres : env.transcribeRes h p with
    | none => rfl
    | some res =>
      have hwsr := hws h res hres
      unfold wsOnly modelText at hwsr
      cases hsegs : res.segments with
      | none =>
        rw [hsegs] at hwsr
        simp only [hsegs, decide_eq_true_eq] at hwsr ⊢
        rw [if_pos hwsr]
      | some segs =>
        cases segs with
        | nil =>
          rw [hsegs] at hwsr
          simp only [hsegs, decide_eq_true_eq] at hwsr ⊢
          rw [if_pos hwsr]
        | cons sg rest =>
          rw [hsegs] at hwsr
          simp only [hsegs, decide_eq_true_eq] at hwsr ⊢
          have hall : ∀ x ∈ sg :: rest, pyStrip x.text = "" := by
            intro x hx
            refine pyStrip_eq_empty_of_all_ws ?_
            intro c hc
            exact all_ws_of_pyStrip_eq_empty hwsr c (mem_concatTexts hx c hc)
          rw [segLoop_all_ws env (sg :: rest) hall]
          dsimp only
          rw [if_pos (show pyStrip "" = "" from rfl)]

theorem finishStage_noSpeech (env : Env) (Y : St) (url ap pp : String)
    (hcb : ∀ k, env.cbRaises k = none)
    (hws : ∀ h r, env.transcribeRes h pp = some r → wsOnly r = true) :
    (finishStage env Y url ap pp).2 = noSpeechRes := by
  unfold finishStage
  simp only [invokeCb_none hcb]
  simp only [transcribeAudio_ws_none env _ pp hcb hws]

theorem convertStage_noSpeech (env : Env) (Y : St) (url ap : String)
    (hW : env.wavPath ≠ "") (hap : ap ≠ "")
    (hcb : ∀ k, env.cbRaises k = none)
    (hws : ∀ h q r, env.transcribeRes h q = some r → wsOnly r = true) :
    (convertStage env Y url ap).2 = noSpeechRes := by
  unfold convertStage
  simp only [invokeCb_none hcb]
  rcases convertToWav_spec env (invokeCb env Y (Event.status "Processing audio...")).1 ap
    with hcv | hcv
  · simp only [hcv]
    rw [if_neg hap]
    exact finishStage_noSpeech env _ url ap ap hcb (fun h r => hws h ap r)
  · simp only [hcv]
    rw [if_neg hW]
    exact finishStage_noSpeech env _ url ap env.wavPath hcb (fun h r => hws h env.wavPath r)

/-- The first download approach with a created file returns the mp3-mapped
path and registers it. -/
theorem downloadAttempt_approach1 (env : Env) (s : St) (q : String)
    (hdl : env.dl 1 = DlOutcome.info q true) :
    downloadAttempt env s 1 =
      ({ s with events := s.events ++ [LogEntry.dlAttempt 1],
                disk := diskAdd (splitextRoot q ++ ".mp3") s.disk,
                tempFiles := s.tempFiles ++ [splitextRoot q ++ ".mp3"],
                regLog := s.regLog ++ [splitextRoot q ++ ".mp3"] },
        some (splitextRoot q ++ ".mp3")) := by
  unfold downloadAttempt
  rw [hdl]
  have hne := append_mp3_ne_empty (splitextRoot q)
  have hhas : diskHas (splitextRoot q ++ ".mp3")
      (diskAdd (splitextRoot q ++ ".mp3") s.disk) = true := by
    refine diskHas_iff.mpr ?_
    unfold diskAdd
    rw [if_neg hne]
    exact List.mem_cons_self _ _
  simp [hhas]

/-- C5: when the model output (for any audio path) trims to the empty
string, `transcribe_youtube_url` reports the no-speech failure, never an
empty success. -/
theorem c5_whitespace_is_no_speech (env : Env) (s : St) (url q : String)
    (hv : isValidYoutubeUrl url = true)
    (hcb : ∀ k, env.cbRaises k = none)
    (hdl1 : env.dl 1 = DlOutcome.info q true)
    (hW : env.wavPath ≠ "")
    (hws : ∀ h p r, env.transcribeRes h p = some r → wsOnly r = true) :
    (transcribeYoutubeUrl env s url).2 = noSpeechRes := by
  unfold transcribeYoutubeUrl
  rw [if_neg (by simp [hv])]
  simp only [invokeCb_none hcb]
  have hatt := downloadAttempt_approach1 env
    (invokeCb env s (Event.status "Downloading audio...")).1 q hdl1
  unfold downloadAudio
  simp only [hatt]
  rw [if_neg (append_mp3_ne_empty (splitextRoot q))]
  exact convertStage_noSpeech env _ url (splitextRoot q ++ ".mp3") hW
    (append_mp3_ne_empty (splitextRoot q)) hcb hws

/-- Witness for `c5_whitespace_is_no_speech` with whitespace segments. -/
theorem c5_whitespace_is_no_speech_witness :
    (transcribeYoutubeUrl envWs st0 urlOk).2 = noSpeechRes :=
  c5_whitespace_is_no_speech envWs st0 urlOk "vid.webm" (by decide) (fun _ => rfl)
    rfl (by decide) (fun h p r hr => by
      simp only [envWs, envOk] at hr
      cases hr
      decide)

/-! ## C7: conversion failure is non-fatal -/

theorem finishStage_error_ne (env : Env) (Y : St) (url ap pp : String)
    (hcb : ∀ k, env.cbRaises k = none) :
    (finishStage env Y url ap pp).2.error ≠ some "Failed to process audio" := by
  unfold finishStage
  simp only [invokeCb_none hcb]
  cases htr : (transcribeAudio env
      (invokeCb env Y (Event.status "Transcribing with Whisper...")).1 pp).2 with
  | none =>
    simp only [htr]
    intro hcon
    exact absurd (Option.some.inj hcon) (by decide)
  | some t =>
    simp only [htr]
    by_cases hts : pyStrip t = ""
    · rw [if_pos hts]
      intro hcon
      exact absurd (Option.some.inj hcon) (by decide)
    · rw [if_neg hts]
      intro hcon
      cases hcon

theorem convertStage_error_ne (env : Env) (Y : St) (url ap : String)
    (hW : env.wavPath ≠ "") (hap : ap ≠ "")
    (hcb : ∀ k, env.cbRaises k = none) :
    (convertStage env Y url ap).2.error ≠ some "Failed to process audio" := by
  unfold convertStage
  simp only [invokeCb_none hcb]
  rcases convertToWav_spec env (invokeCb env Y (Event.status "Processing audio...")).1 ap
    with hcv | hcv
  · simp only [hcv]
    rw [if_neg hap]
    exact finishStage_error_ne env _ url ap ap hcb
  · simp only [hcv]
    rw [if_neg hW]
    exact finishStage_error_ne env _ url ap env.wavPath hcb

/-- C7: a transcoding step that raises returns the original path
unchanged, and (given a sane `mktemp` and a non-raising callback) the call
can never fail with the processing-failure error — conversion failure is
non-fatal. -/
theorem c7_conversion_failure_nonfatal (env : Env) (s : St) (p url : String) :
    (convThrows env p → convertToWav env s p = (s, some p)) ∧
      (env.wavPath ≠ "" → (∀ k, env.cbRaises k = none) →
        (transcribeYoutubeUrl env s url).2.error ≠ some "Failed to process audio") := by
  constructor
  · intro hthrow
    unfold convertToWav
    rcases hthrow with hg | ⟨n, hg, hle, hd⟩
    · rw [hg]
    · rw [hg]
      dsimp only
      rw [if_neg (by omega : ¬ n > maxConvertSize)]
      simp [hd]
  · intro hW hcb
    unfold transcribeYoutubeUrl
    by_cases hv : isValidYoutubeUrl url = false
    · rw [if_pos hv]
      intro hcon
      exact absurd (Option.some.inj hcon) (by decide)
    · rw [if_neg hv]
      simp only [invokeCb_none hcb]
      rcases downloadAudio_spec env
          (invokeCb env s (Event.status "Downloading audio...")).1
        with ⟨evs, hdl⟩ | ⟨q, d, evs, hdl, hsub, hmem, hemp⟩
      · simp only [hdl]
        intro hcon
        exact absurd (Option.some.inj hcon) (by decide)
      · simp only [hdl]
        by_cases hap : q = ""
        · rw [if_pos hap]
          intro hcon
          exact absurd (Option.some.inj hcon) (by decide)
        · rw [if_neg hap]
          exact convertStage_error_ne env _ url q hW hap hcb

/-- Witness for `c7_conversion_failure_nonfatal` with a raising decode. -/
theorem c7_conversion_failure_nonfatal_witness :
    convertToWav envConvFail st0 "a.webm" = (st0, some "a.webm") ∧
      (transcribeYoutubeUrl envConvFail st0 urlOk).2.error ≠
        some "Failed to process audio" :=
  ⟨(c7_conversion_failure_nonfatal envConvFail st0 "a.webm" urlOk).1
      (Or.inr ⟨1000, rfl, by norm_num [maxConvertSize], rfl⟩),
    (c7_conversion_failure_nonfatal envConvFail st0 "a.webm" urlOk).2
      (by decide) (fun _ => rfl)⟩

/-! ## C8: model cache invalidation -/

/-- C8: after a transcription cached a model and `change_model("small")`
ran, the cache is cleared, the size is "small", and the next transcription
performs a fresh `whisper.load_model("small")` whose handle becomes the new
cache — the old model is not reused. -/
theorem c8_change_model_invalidates_cache (env : Env) (s : St) (m p h : String)
    (hcached : s.whisperModel = some m)
    (hnc : env.hasCb = false) (hload : env.loadModel "small" = some h) :
    ∃ s2, changeModel s "small" = some s2 ∧ s2.whisperModel = none ∧
      s2.modelSize = "small" ∧
      LogEntry.modelLoad "small" ∈ (transcribeAudio env s2 p).1.events ∧
      (transcribeAudio env s2 p).1.whisperModel = some h := by
  refine ⟨{ s with modelSize := "small", whisperModel := none }, ?_, rfl, rfl, ?_⟩
  · unfold changeModel
    rw [if_pos (by decide)]
  · have h2 : (loadStep env
        ({ s with modelSize := "small", whisperModel := none } : St)).2 = some h := by
      unfold loadStep
      simp [invokeCb, hnc, hload]
    have h1e : (loadStep env
        ({ s with modelSize := "small", whisperModel := none } : St)).1.events =
        s.events ++ [LogEntry.modelLoad "small"] := by
      unfold loadStep
      simp [invokeCb, hnc, hload]
    have h1w : (loadStep env
        ({ s with modelSize := "small", whisperModel := none } : St)).1.whisperModel =
        some h := by
      unfold loadStep
      simp [invokeCb, hnc, hload]
    unfold transcribeAudio
    simp only [h2]
    obtain ⟨_, _, _, hwm, _, evs, hevs⟩ := transcribeBody_pres env
      (loadStep env ({ s with modelSize := "small", whisperModel := none } : St)).1 h p
    constructor
    · rw [hevs, h1e]
      refine List.mem_append.mpr (Or.inl ?_)
      simp
    · rw [hwm, h1w]

/-- Witness for `c8_change_model_invalidates_cache`. -/
theorem c8_change_model_invalidates_cache_witness :
    ∃ s2, changeModel stCached "small" = some s2 ∧ s2.whisperModel = none ∧
      s2.modelSize = "small" ∧
      LogEntry.modelLoad "small" ∈ (transcribeAudio envNoCb s2 "a.wav").1.events ∧
      (transcribeAudio envNoCb s2 "a.wav").1.whisperModel = some "small" :=
  c8_change_model_invalidates_cache envNoCb stCached "base" "a.wav" "small"
    rfl rfl rfl

/-! ## C9: the SSE event generator -/

/-- C9 (counterexample): a queue message of type `error` is forwarded but
does not terminate the generator loop — a later message is still yielded
and the loop reports that it never broke, refuting "terminates after an
event whose type is transcription_complete or error". -/
theorem c9_counterexample :
    eventGen [QItem.msg ⟨"error"⟩, QItem.msg ⟨"status"⟩] =
      ([SSEOut.data ⟨"error"⟩, SSEOut.data ⟨"status"⟩], false) := by
  decide

/-- C9 (amended): the generator terminates exactly after the first
`transcription_complete` message (everything after it is ignored), and a
script with no completion message is processed in full, each timeout
yielding a keepalive and each message being forwarded, without
termination. -/
theorem c9_stream_termination :
    (∀ (pre : List QItem) (m : SSEMsg) (suf : List QItem),
        m.mtype = "transcription_complete" →
        eventGen (pre ++ QItem.msg m :: suf) = eventGen (pre ++ [QItem.msg m])) ∧
      (∀ items : List QItem,
        (∀ m : SSEMsg, QItem.msg m ∈ items → m.mtype ≠ "transcription_complete") →
        eventGen items = (items.map itemOut, false)) := by
  constructor
  · intro pre m suf hm
    induction pre with
    | nil =>
      simp only [List.nil_append]
      unfold eventGen
      rw [if_pos hm]
      rw [if_pos hm]
    | cons x rest ih =>
      cases x with
      | msg m1 =>
        by_cases hm1 : m1.mtype = "transcription_complete"
        · simp only [List.cons_append]
          unfold eventGen
          rw [if_pos hm1, if_pos hm1]
        · simp only [List.cons_append]
          unfold eventGen
          rw [if_neg hm1, if_neg hm1]
          rw [ih]
      | timeout =>
        simp only [List.cons_append]
        unfold eventGen
        rw [ih]
  · intro items h
    induction items with
    | nil => rfl
    | cons x rest ih =>
      cases x with
      | msg m1 =>
        have hm1 : m1.mtype ≠ "transcription_complete" :=
          h m1 (List.mem_cons_self _ _)
        unfold eventGen
        rw [if_neg hm1]
        rw [ih (fun m hm => h m (List.mem_cons_of_mem _ hm))]
        rfl
      | timeout =>
        unfold eventGen
        rw [ih (fun m hm => h m (List.mem_cons_of_mem _ hm))]
        rfl

/-- Witness for `c9_stream_termination`: a suffix after the completion
message is ignored. -/
theorem c9_stream_termination_witness :
    eventGen ([QItem.msg ⟨"status"⟩] ++
        QItem.msg ⟨"transcription_complete"⟩ :: [QItem.timeout]) =
      eventGen ([QItem.msg ⟨"status"⟩] ++ [QItem.msg ⟨"transcription_complete"⟩]) :=
  c9_stream_termination.1 [QItem.msg ⟨"status"⟩] ⟨"transcription_complete"⟩
    [QItem.timeout] rfl

end Transcribe
